import Mathlib

/- Shallow embedding of the xlsx2md converter (src/xlsx2md.py).

   Python strings are modelled as lists of characters (`Str`).  Fallible code is
   modelled with `Except PyErr`.  XML parts that the converter reads from the
   zip archive are modelled as already-parsed optional structures: `none` means
   the part is absent from the archive (the `KeyError` that `zip_ref.open`
   raises is caught by the optional-part extractors), `some` carries the parsed
   content of a well-formed part.  Element text that would be `None` in Python
   is modelled as an absent optional where the distinction matters.  -/

abbrev Str := List Char

def str (s : String) : Str := s.data

/-- Python exception kinds that the converter can raise. -/
inductive PyErr where
  | indexError
  | keyError
  | attributeError
  | valueError
deriving DecidableEq

/-- Python `hay.startswith(needle)`: `strStarts needle hay`. -/
def strStarts : Str → Str → Bool
  | [], _ => true
  | _ :: _, [] => false
  | a :: as, b :: bs => if a = b then strStarts as bs else false

/-- Python `needle in hay` on strings (substring containment). -/
def strContains (needle : Str) : Str → Bool
  | [] => strStarts needle []
  | c :: cs => strStarts needle (c :: cs) || strContains needle cs

/-- Python `s.split(sep)` for a one-character separator: keeps empty pieces. -/
def splitOnChar (sep : Char) : Str → List Str
  | [] => [[]]
  | c :: cs =>
    if c = sep then [] :: splitOnChar sep cs
    else
      match splitOnChar sep cs with
      | [] => [[c]]
      | h :: t => (c :: h) :: t

/-- Python string joining with a separator. -/
def pyJoin (sep : Str) : List Str → Str
  | [] => []
  | [x] => x
  | x :: y :: ys => x ++ sep ++ pyJoin sep (y :: ys)

/-- Fuel-driven worker for `pyReplace`; fuel bounds the number of scan steps. -/
def pyReplaceAux (old new : Str) : Nat → Str → Str
  | _, [] => []
  | 0, s => s
  | Nat.succ fuel, c :: cs =>
    if strStarts old (c :: cs) then
      new ++ pyReplaceAux old new fuel (List.drop (old.length - 1) cs)
    else c :: pyReplaceAux old new fuel cs

/-- Python `s.replace(old, new)` for a non-empty `old` (the converter only
    replaces the literal `"../"`). -/
def pyReplace (s old new : Str) : Str := pyReplaceAux old new s.length s

/-- Characters stripped by Python `str.strip()` (the ASCII whitespace set). -/
def isPySpace (c : Char) : Bool :=
  c = ' ' || c = '\t' || c = '\n' || c = '\r' || c = '\x0b' || c = '\x0c'

/-- Python `s.strip()`. -/
def pyStrip (s : Str) : Str :=
  ((s.dropWhile isPySpace).reverse.dropWhile isPySpace).reverse

def parseDigit (c : Char) : Option Nat :=
  if '0' ≤ c ∧ c ≤ '9' then some (c.toNat - '0'.toNat) else none

def parseNatAux : Nat → Str → Option Nat
  | acc, [] => some acc
  | acc, c :: cs =>
    match parseDigit c with
    | none => none
    | some d => parseNatAux (acc * 10 + d) cs

def parseNatDigits : Str → Option Nat
  | [] => none
  | c :: cs => parseNatAux 0 (c :: cs)

/-- Python `int(s)` for plain decimal text with an optional leading minus sign
    (the forms that occur in the cell `v` elements and attributes the converter
    parses); `none` models the `ValueError` raise. -/
def pyInt : Str → Option Int
  | '-' :: rest => (parseNatDigits rest).map (fun n => -(n : Int))
  | s => (parseNatDigits s).map (fun n => (n : Int))

/-- Python list indexing `xs[i]`: negative indices count from the end, an index
    outside `[-len, len)` raises `IndexError`. -/
def pyListGet (xs : List Str) (i : Int) : Except PyErr Str :=
  let j := if i < 0 then (xs.length : Int) + i else i
  if 0 ≤ j then
    match xs.get? j.toNat with
    | some x => Except.ok x
    | none => Except.error PyErr.indexError
  else Except.error PyErr.indexError

/-- Sequencing of a fallible function over a list, first error wins (the order
    in which the Python loops visit elements). -/
def exceptMapM {α β : Type} (f : α → Except PyErr β) : List α → Except PyErr (List β)
  | [] => Except.ok []
  | x :: xs =>
    match f x with
    | Except.error e => Except.error e
    | Except.ok y =>
      match exceptMapM f xs with
      | Except.error e => Except.error e
      | Except.ok ys => Except.ok (y :: ys)

/-- One entry of `self.styles`: the per-index dict built by `extract_styles`. -/
structure Style where
  vertAlign : Option Str := none
  indent : Option Int := none
deriving DecidableEq

/-- Python `self.styles.get(k)` on the insertion-ordered dict. -/
def dictGet : List (Int × Style) → Int → Option Style
  | [], _ => none
  | (k0, v) :: rest, k => if k0 = k then some v else dictGet rest k

/-- Python setdefault followed by the indent assignment on the styles dict:
    update the entry in place when the key exists, otherwise append a fresh
    entry at the end. -/
def dictSetIndent : List (Int × Style) → Int → Int → List (Int × Style)
  | [], k, n => [(k, { indent := some n })]
  | (k0, v) :: rest, k, n =>
    if k0 = k then (k0, { v with indent := some n }) :: rest
    else (k0, v) :: dictSetIndent rest k n

/-- One `font` element of styles.xml: its optional `vertAlign val` attribute. -/
structure FontEntry where
  vertAlign : Option Str := none

/-- One `cellXfs/xf` element of styles.xml: the optional parsed `indent`
    attribute of its `alignment` child. -/
structure XfEntry where
  indent : Option Int := none

/-- Parsed content of styles.xml. -/
structure StylesXml where
  fonts : List FontEntry := []
  cellXfs : List XfEntry := []

/-- First pass of `extract_styles`: fonts with a `vertAlign` element. -/
def fontsPass (fonts : List FontEntry) : List (Int × Style) :=
  fonts.enum.filterMap (fun p =>
    match p.2.vertAlign with
    | some a => some ((p.1 : Int), ({ vertAlign := some a } : Style))
    | none => none)

/-- `extract_styles`: absent part yields the empty dict (caught `KeyError`),
    otherwise the fonts pass followed by the cellXfs indent pass. -/
def extract_styles : Option StylesXml → List (Int × Style)
  | none => []
  | some sx =>
    sx.cellXfs.enum.foldl (fun d p =>
      match p.2.indent with
      | some n => dictSetIndent d (p.1 : Int) n
      | none => d) (fontsPass sx.fonts)

/-- One `si` item of sharedStrings.xml: the texts of all `t` descendants, and
    the direct `t` child if present (`some none` = child present, text `None`). -/
structure SIItem where
  runTexts : List Str := []
  directT : Option (Option Str) := none

/-- The value of one `si` item: the joined run texts, falling back (when the
    join is falsy) to the text of the direct t child coerced from None to the
    empty string, which raises an AttributeError when there is no direct t
    child at all. -/
def si_string (si : SIItem) : Except PyErr Str :=
  let joined := si.runTexts.flatten
  if joined.isEmpty then
    match si.directT with
    | none => Except.error PyErr.attributeError
    | some none => Except.ok []
    | some (some t) => Except.ok t
  else Except.ok joined

/-- `extract_shared_strings`: absent part keeps the empty list. -/
def extract_shared_strings : Option (List SIItem) → Except PyErr (List Str)
  | none => Except.ok []
  | some items => exceptMapM si_string items

/-- One `a:r` run of a drawing paragraph: optional text of its `a:t` child
    (absent element or `None` text collapse to `none`) and the optional parsed
    `baseline` attribute of its `a:rPr` child (absent `rPr` or attribute both
    default to baseline 0). -/
structure DrawRun where
  text : Option Str := none
  baseline : Option Int := none

/-- A direct child of a drawing paragraph that the extractor inspects. -/
inductive DrawElem where
  | run (r : DrawRun)
  | br

structure DrawPara where
  elems : List DrawElem := []

structure DrawingXml where
  paras : List DrawPara := []

/-- `format_drawing_text`: wrap non-space characters per character, `^` for a
    positive baseline (superscript), `~` for a negative one (subscript). -/
def format_drawing_text (r : DrawRun) : Str :=
  match r.text with
  | none => []
  | some text =>
    let baseline := r.baseline.getD 0
    if baseline > 0 then
      (text.map (fun c => if c = ' ' then [c] else ['^', c, '^'])).flatten
    else if baseline < 0 then
      (text.map (fun c => if c = ' ' then [c] else ['~', c, '~'])).flatten
    else text

/-- Paragraph content in `extract_full_text`: runs formatted, `a:br` becomes a
    newline. -/
def para_text (p : DrawPara) : Str :=
  (p.elems.map (fun e =>
    match e with
    | DrawElem.run r => format_drawing_text r
    | DrawElem.br => ['\n'])).flatten

/-- `extract_full_text`: paragraphs joined by newlines, then stripped. -/
def extract_full_text (d : DrawingXml) : Str :=
  pyStrip (pyJoin (str "\n") (d.paras.map para_text))

/-- Look up a drawing part by archive path (`zip_ref.open`). -/
def partGet : List (Str × DrawingXml) → Str → Option DrawingXml
  | [], _ => none
  | (k0, v) :: rest, k => if k0 = k then some v else partGet rest k

/-- `extract_drawing_metadata`: for each relationship targeting `../drawings/`,
    open the part (a missing part is silently skipped), emit the text block or
    the media placeholder. -/
def extract_drawing_metadata (parts : List (Str × DrawingXml))
    (relationships : List (Str × Str)) : List Str :=
  relationships.filterMap (fun p =>
    if strStarts (str "../drawings/") p.2 then
      let drawing_file := pyReplace p.2 (str "../") (str "xl/")
      match partGet parts drawing_file with
      | none => none
      | some d =>
        let text_content := extract_full_text d
        if text_content.isEmpty then
          some (str "Drawing (id: " ++ p.1 ++ str ") from " ++ drawing_file ++ str " (media)")
        else some (str "Drawing (id: " ++ p.1 ++ str "):\n" ++ text_content)
    else none)

/-- One `c` element of the sheet: attributes `r`, `t`, `s` (the style index is
    modelled already parsed), the text of its `v` child, and the concatenated
    texts of each `is/r` inline rich-text run. -/
structure Cell where
  r : Option Str := none
  t : Option Str := none
  v : Option Str := none
  s : Option Int := none
  inlineRuns : List Str := []

structure Row where
  cells : List Cell := []

/-- Parsed sheet1.xml: the rows and the optional `mergeCells` element. -/
structure SheetXml where
  rows : List Row := []
  mergeCells : Option (List Str) := none

/-- `extract_merged_cells`: absent `mergeCells` element yields the empty list. -/
def extract_merged_cells (sheet : SheetXml) : List Str := sheet.mergeCells.getD []

/-- `apply_styles`.  Note that the superscript branch of the source is the
    no-op `value = f"\x7bvalue\x7d"`, reproduced here as `value` unchanged. -/
def apply_styles (value : Str) (style : Style) : Str :=
  let v1 :=
    match style.vertAlign with
    | some a =>
      if a = str "superscript" then value
      else if a = str "subscript" then str "_" ++ value ++ str "_"
      else value
    | none => value
  match style.indent with
  | some n => List.replicate n.toNat '-' ++ str "> " ++ v1
  | none => v1

/-- The first half of `process_cell`: the shared-string / literal value
    resolution (the branch taken when the t attribute equals the letter s,
    else the text of the v element). -/
def resolve_value (shared_strings : List Str) (cell : Cell) : Except PyErr Str :=
  if cell.t = some (str "s") then
    match cell.v with
    | none => Except.error PyErr.attributeError
    | some vt =>
      match pyInt vt with
      | none => Except.error PyErr.valueError
      | some i => pyListGet shared_strings i
  else Except.ok (cell.v.getD [])

/-- `process_cell`: resolve the value, override by inline rich text when
    present, apply the looked-up style (dict `get` with empty default), read
    the `r` attribute (a `KeyError` when absent), and append the merged suffix
    when the reference is a substring of any merge-range token.  The trailing
    `value or ""` of the source is the identity on strings. -/
def process_cell (shared_strings : List Str) (styles : List (Int × Style))
    (cell : Cell) (merged_cells : List Str) : Except PyErr Str :=
  match resolve_value shared_strings cell with
  | Except.error e => Except.error e
  | Except.ok value0 =>
    let value1 := if cell.inlineRuns.isEmpty then value0 else cell.inlineRuns.flatten
    let style := (dictGet styles (cell.s.getD (-1))).getD {}
    let value2 := apply_styles value1 style
    match cell.r with
    | none => Except.error PyErr.keyError
    | some cell_ref =>
      Except.ok (if merged_cells.any (fun m => strContains cell_ref m)
        then value2 ++ str " (merged)" else value2)

/-- The list comprehension building `row_data` in `build_markdown_table`. -/
def process_row (ss : List Str) (st : List (Int × Style)) (merged : List Str)
    (row : Row) : Except PyErr (List Str) :=
  exceptMapM (fun c => process_cell ss st c merged) row.cells

/-- The pipe-delimited line built from the data of one row. -/
def row_line (row_data : List Str) : Str :=
  str "| " ++ pyJoin (str " | ") row_data ++ str " |"

/-- The row loop of `build_markdown_table`: a row whose `row_data` is empty is
    skipped (`if row_data:`), the others each append a `row_line`. -/
def rows_lines (ss : List Str) (st : List (Int × Style)) (merged : List Str) :
    List Row → Except PyErr (List Str)
  | [] => Except.ok []
  | row :: rows =>
    match process_row ss st merged row with
    | Except.error e => Except.error e
    | Except.ok rd =>
      match rows_lines ss st merged rows with
      | Except.error e => Except.error e
      | Except.ok rest => Except.ok (if rd.isEmpty then rest else row_line rd :: rest)

/-- `add_table_header`: when the table is non-empty, split its FIRST line on
    every pipe, keep the pieces `[1:-1]`, replace each by a dash run of the
    same length, and insert the separator at position 1; finally join with
    newlines. -/
def add_table_header (markdown_table : List Str) : Str :=
  match markdown_table with
  | [] => []
  | first :: rest =>
    let cols := ((splitOnChar '|' first).drop 1).dropLast
    let header_separator :=
      str "| " ++ pyJoin (str " | ") (cols.map (fun col => List.replicate col.length '-')) ++ str " |"
    pyJoin (str "\n") (first :: header_separator :: rest)

/-- `build_markdown_table`: the optional drawings preface, the row lines, then
    `add_table_header` over the whole accumulated list. -/
def build_markdown_table (ss : List Str) (st : List (Int × Style)) (rows : List Row)
    (merged_cells drawing_metadata : List Str) : Except PyErr Str :=
  let pre : List Str :=
    if drawing_metadata.isEmpty then []
    else str "\nDrawings:" :: (drawing_metadata.map (fun d => str "* " ++ d) ++ [str "\n"])
  match rows_lines ss st merged_cells rows with
  | Except.error e => Except.error e
  | Except.ok rls => Except.ok (add_table_header (pre ++ rls))

/-- The zip archive, restricted to the parts the converter reads.  `sheet1` is
    the required part `xl/worksheets/sheet1.xml`; `relsPart` is the parsed
    relationship part at the conventional sibling path. -/
structure Archive where
  sharedStringsPart : Option (List SIItem) := none
  stylesPart : Option StylesXml := none
  sheet1 : Option SheetXml := none
  relsPart : Option (List (Str × Str)) := none
  drawingParts : List (Str × DrawingXml) := []

/-- `extract_relationships`: absent part yields the empty mapping. -/
def extract_relationships (p : Option (List (Str × Str))) : List (Str × Str) := p.getD []

/-- `convert`: shared strings, styles, then the required sheet part (a missing
    sheet raises `KeyError`), then the table build. -/
def convert (a : Archive) : Except PyErr Str :=
  match extract_shared_strings a.sharedStringsPart with
  | Except.error e => Except.error e
  | Except.ok shared_strings =>
    let styles := extract_styles a.stylesPart
    match a.sheet1 with
    | none => Except.error PyErr.keyError
    | some sheet =>
      build_markdown_table shared_strings styles sheet.rows (extract_merged_cells sheet)
        (extract_drawing_metadata a.drawingParts (extract_relationships a.relsPart))

/- Concrete fixtures used by the claim theorems, witnesses and
   counterexamples. -/

def c4cell : Cell := { r := some (str "A1"), t := some (str "s"), v := some (str "5") }

def c5cell : Cell := { r := some (str "A1"), v := some (str "x"), s := some 99 }

def c6cell : Cell := { r := some (str "A1"), v := some (str "x") }

def c9cell : Cell := { v := some (str "x") }

def c9sheet : SheetXml := { rows := [{ cells := [c9cell] }] }

def c9archive : Archive := { sheet1 := some c9sheet }

def c10cell : Cell := { r := some (str "A1"), t := some (str "s"), v := some (str "-1") }

def c2sheet : SheetXml :=
  { rows := [
      { cells := [
          { r := some (str "A1"), v := some (str "Name") },
          { r := some (str "B1"), v := some (str "Age") } ] } ] }

def c2archive : Archive := { sheet1 := some c2sheet }

def c3wrow : Row := { cells := [{ r := some (str "A1"), v := some (str "X") }] }

def c3drawing : DrawingXml :=
  { paras := [{ elems := [DrawElem.run { text := some (str "hi") }] }] }

def c3sheet : SheetXml :=
  { rows := [{ cells := [{ r := some (str "A1"), v := some (str "X") }] }] }

def c3archive : Archive :=
  { sheet1 := some c3sheet,
    relsPart := some [(str "rId1", str "../drawings/drawing1.xml")],
    drawingParts := [(str "xl/drawings/drawing1.xml", c3drawing)] }

def c7sheet : SheetXml :=
  { rows := [{ cells := [{ r := some (str "A1"), t := some (str "s"), v := some (str "0") }] }] }

def c7archive : Archive := { sheet1 := some c7sheet }

def c7wsheet : SheetXml :=
  { rows := [{ cells := [{ r := some (str "A1"), v := some (str "7") }] }] }

def c7warchive : Archive := { sheet1 := some c7wsheet }

def c8cell : Cell := { r := some (str "A1"), v := some (str "x") }

/- ------------------------------------------------------------------ -/
/- Helper lemmas                                                      -/
/- ------------------------------------------------------------------ -/

theorem exceptMapM_length {α β : Type} (f : α → Except PyErr β) (xs : List α) (ys : List β)
    (h : exceptMapM f xs = Except.ok ys) : ys.length = xs.length := by
  induction xs generalizing ys with
  | nil =>
    simp [exceptMapM] at h
    subst h; rfl
  | cons x xs ih =>
    unfold exceptMapM at h
    cases hx : f x with
    | error e => rw [hx] at h; exact absurd h (by simp)
    | ok y =>
      rw [hx] at h
      cases hr : exceptMapM f xs with
      | error e => rw [hr] at h; exact absurd h (by simp)
      | ok ys2 =>
        rw [hr] at h
        simp at h
        subst h
        simp [ih ys2 hr]

theorem exceptMapM_ok_of_forall {α β : Type} (f : α → Except PyErr β) (xs : List α)
    (h : ∀ x ∈ xs, ∃ y, f x = Except.ok y) : ∃ ys, exceptMapM f xs = Except.ok ys := by
  induction xs with
  | nil => exact ⟨[], rfl⟩
  | cons x xs ih =>
    obtain ⟨y, hy⟩ := h x (List.mem_cons_self x xs)
    obtain ⟨ys, hys⟩ := ih (fun a ha => h a (List.mem_cons_of_mem x ha))
    exact ⟨y :: ys, by simp [exceptMapM, hy, hys]⟩

theorem exceptMapM_error_of_mem {α β : Type} (f : α → Except PyErr β) (xs : List α) (x : α)
    (hx : x ∈ xs) (h : ∃ e, f x = Except.error e) :
    ∃ e, exceptMapM f xs = Except.error e := by
  induction xs with
  | nil => cases hx
  | cons y ys ih =>
    cases hy : f y with
    | error e => exact ⟨e, by simp [exceptMapM, hy]⟩
    | ok b =>
      rcases List.mem_cons.mp hx with hxy | hxm
      · obtain ⟨e, he⟩ := h
        rw [hxy, hy] at he
        cases he
      · obtain ⟨e, he⟩ := ih hxm
        exact ⟨e, by simp [exceptMapM, hy, he]⟩

theorem splitOnChar_of_not_mem (sep : Char) (xs : Str) (h : sep ∉ xs) :
    splitOnChar sep xs = [xs] := by
  induction xs with
  | nil => rfl
  | cons c cs ih =>
    have hc : ¬ c = sep := by
      intro hcs; exact h (hcs ▸ List.mem_cons_self c cs)
    have hcs : sep ∉ cs := fun hm => h (List.mem_cons_of_mem c hm)
    simp [splitOnChar, hc, ih hcs]

theorem splitOnChar_append_sep (sep : Char) (xs ys : Str) (h : sep ∉ xs) :
    splitOnChar sep (xs ++ sep :: ys) = xs :: splitOnChar sep ys := by
  induction xs with
  | nil => simp [splitOnChar]
  | cons c cs ih =>
    have hc : ¬ c = sep := by
      intro hcs; exact h (hcs ▸ List.mem_cons_self c cs)
    have hcs : sep ∉ cs := fun hm => h (List.mem_cons_of_mem c hm)
    have heq : (c :: cs) ++ sep :: ys = c :: (cs ++ sep :: ys) := rfl
    have hstep : splitOnChar sep (c :: (cs ++ sep :: ys)) =
        (if c = sep then [] :: splitOnChar sep (cs ++ sep :: ys) else
          match splitOnChar sep (cs ++ sep :: ys) with
          | [] => [[c]]
          | h :: t => (c :: h) :: t) := rfl
    rw [heq, hstep, if_neg hc, ih hcs]

theorem map_ext_mem {α β : Type} (f g : α → β) (l : List α) (h : ∀ a ∈ l, f a = g a) :
    l.map f = l.map g := by
  induction l with
  | nil => rfl
  | cons x xs ih =>
    simp only [List.map_cons, h x (List.mem_cons_self x xs),
      ih (fun a ha => h a (List.mem_cons_of_mem x ha))]

theorem str_mid_sep : str " | " = [' ', '|', ' '] := rfl

theorem str_left_edge : str "| " = ['|', ' '] := rfl

theorem str_right_edge : str " |" = [' ', '|'] := rfl

theorem pipe_not_mem_pad (t : Str) (ht : '|' ∉ t) : '|' ∉ (' ' :: (t ++ [' '])) := by
  intro hm
  rcases List.mem_cons.mp hm with h1 | h2
  · exact absurd h1 (by decide)
  · rcases List.mem_append.mp h2 with h3 | h4
    · exact ht h3
    · simp at h4

theorem splitOnChar_row (ts : List Str) (hne : ts ≠ []) (hp : ∀ t ∈ ts, '|' ∉ t) :
    splitOnChar '|' ((' ' :: pyJoin (str " | ") ts) ++ [' ', '|']) =
      ts.map (fun t => ' ' :: (t ++ [' '])) ++ [[]] := by
  induction ts with
  | nil => exact absurd rfl hne
  | cons t0 ts ih =>
    have h0 : '|' ∉ (' ' :: (t0 ++ [' '])) :=
      pipe_not_mem_pad t0 (hp t0 (List.mem_cons_self t0 ts))
    cases ts with
    | nil =>
      have heq : (' ' :: pyJoin (str " | ") [t0]) ++ [' ', '|'] =
          (' ' :: (t0 ++ [' '])) ++ '|' :: [] := by
        simp [pyJoin]
      rw [heq, splitOnChar_append_sep '|' _ _ h0]
      rfl
    | cons t1 ts2 =>
      have heq : (' ' :: pyJoin (str " | ") (t0 :: t1 :: ts2)) ++ [' ', '|'] =
          (' ' :: (t0 ++ [' '])) ++ '|' ::
            ((' ' :: pyJoin (str " | ") (t1 :: ts2)) ++ [' ', '|']) := by
        simp [pyJoin, str_mid_sep]
      rw [heq, splitOnChar_append_sep '|' _ _ h0,
        ih (by simp) (fun t htm => hp t (List.mem_cons_of_mem t0 htm))]
      rfl

theorem row_line_decomp (ts : List Str) :
    row_line ts = '|' :: ((' ' :: pyJoin (str " | ") ts) ++ [' ', '|']) := by
  simp [row_line, str_left_edge, str_right_edge, List.append_assoc]

theorem splitOnChar_row_line (ts : List Str) (hne : ts ≠ []) (hp : ∀ t ∈ ts, '|' ∉ t) :
    splitOnChar '|' (row_line ts) =
      [] :: (ts.map (fun t => ' ' :: (t ++ [' '])) ++ [[]]) := by
  rw [row_line_decomp]
  have hstep : splitOnChar '|' ('|' :: ((' ' :: pyJoin (str " | ") ts) ++ [' ', '|'])) =
      [] :: splitOnChar '|' ((' ' :: pyJoin (str " | ") ts) ++ [' ', '|']) := rfl
  rw [hstep, splitOnChar_row ts hne hp]

theorem pad_length (a : Str) : (' ' :: (a ++ [' '])).length = a.length + 2 := by
  simp

theorem process_cell_literal (ss : List Str) (st : List (Int × Style)) (c : Cell)
    (merged : List Str) (ref : Str) (ht : ¬ c.t = some (str "s")) (hr : c.r = some ref) :
    process_cell ss st c merged = Except.ok
      ((fun value2 => if merged.any (fun m => strContains ref m)
          then value2 ++ str " (merged)" else value2)
        (apply_styles (if c.inlineRuns.isEmpty then c.v.getD [] else c.inlineRuns.flatten)
          ((dictGet st (c.s.getD (-1))).getD {}))) := by
  simp [process_cell, resolve_value, ht, hr]

theorem process_cell_no_ref (ss : List Str) (st : List (Int × Style)) (c : Cell)
    (merged : List Str) (h : c.r = none) :
    ∃ e, process_cell ss st c merged = Except.error e := by
  cases hres : resolve_value ss c with
  | error e => exact ⟨e, by simp [process_cell, hres]⟩
  | ok v0 => exact ⟨PyErr.keyError, by simp [process_cell, hres, h]⟩

theorem rows_lines_ok_of_cells (ss : List Str) (st : List (Int × Style))
    (merged : List Str) (rows : List Row)
    (h : ∀ row ∈ rows, ∀ c ∈ row.cells, ∃ v, process_cell ss st c merged = Except.ok v) :
    ∃ ls, rows_lines ss st merged rows = Except.ok ls := by
  induction rows with
  | nil => exact ⟨[], rfl⟩
  | cons row rows ih =>
    obtain ⟨rd, hrd⟩ := exceptMapM_ok_of_forall (fun c => process_cell ss st c merged)
      row.cells (h row (List.mem_cons_self row rows))
    obtain ⟨rest, hrest⟩ := ih (fun r hrm c hc => h r (List.mem_cons_of_mem row hrm) c hc)
    exact ⟨if rd.isEmpty then rest else row_line rd :: rest,
      by simp [rows_lines, process_row, hrd, hrest]⟩

theorem rows_lines_error_of_cell (ss : List Str) (st : List (Int × Style))
    (merged : List Str) (rows : List Row) (row : Row) (c : Cell)
    (hrow : row ∈ rows) (hc : c ∈ row.cells)
    (hcell : ∃ e, process_cell ss st c merged = Except.error e) :
    ∃ e, rows_lines ss st merged rows = Except.error e := by
  induction rows with
  | nil => cases hrow
  | cons r0 rs ih =>
    cases hpr : process_row ss st merged r0 with
    | error e => exact ⟨e, by simp [rows_lines, hpr]⟩
    | ok rd =>
      rcases List.mem_cons.mp hrow with h1 | h2
      · exfalso
        obtain ⟨e2, he2⟩ := exceptMapM_error_of_mem (fun c => process_cell ss st c merged)
          r0.cells c (h1 ▸ hc) hcell
        unfold process_row at hpr
        rw [he2] at hpr
        cases hpr
      · obtain ⟨e2, he2⟩ := ih h2
        exact ⟨e2, by simp [rows_lines, hpr, he2]⟩

theorem pyListGet_oob (xs : List Str) (i : Int) (h : (xs.length : Int) ≤ i) :
    pyListGet xs i = Except.error PyErr.indexError := by
  have hj : ¬ i < 0 := by omega
  have h0 : (0 : Int) ≤ i := by omega
  have hnone : xs.get? i.toNat = none := List.get?_eq_none.mpr (by omega)
  show (if 0 ≤ (if i < 0 then (xs.length : Int) + i else i) then
      match xs.get? (if i < 0 then (xs.length : Int) + i else i).toNat with
      | some x => Except.ok x
      | none => Except.error PyErr.indexError
    else Except.error PyErr.indexError) = Except.error PyErr.indexError
  rw [if_neg hj, if_pos h0, hnone]

theorem pyListGet_neg_ok (xs : List Str) (i : Int) (w : Str) (hneg : i < 0)
    (h0 : 0 ≤ (xs.length : Int) + i)
    (hw : xs.get? ((xs.length : Int) + i).toNat = some w) :
    pyListGet xs i = Except.ok w := by
  show (if 0 ≤ (if i < 0 then (xs.length : Int) + i else i) then
      match xs.get? (if i < 0 then (xs.length : Int) + i else i).toNat with
      | some x => Except.ok x
      | none => Except.error PyErr.indexError
    else Except.error PyErr.indexError) = Except.ok w
  rw [if_pos hneg, if_pos h0, hw]

/- ------------------------------------------------------------------ -/
/- Claims                                                             -/
/- ------------------------------------------------------------------ -/

/-- Claim C1, evaluated at the failing input: the superscript branch of
`apply_styles` returns a cell value unchanged (the source line is the no-op
reformatting of the value into itself) instead of wrapping each non-space
character, while the subscript branch does wrap the whole value exactly once,
and the drawing-text formatter in the same file wraps superscript runs per
character as the claim describes. -/
theorem C1_superscript_noop :
    apply_styles (str "AB") { vertAlign := some (str "superscript"), indent := none } = str "AB" ∧
    apply_styles (str "AB") { vertAlign := some (str "subscript"), indent := none } = str "_AB_" ∧
    format_drawing_text { text := some (str "AB"), baseline := some 1 } = str "^A^^B^" :=
  ⟨rfl, rfl, rfl⟩

/-- Claim C4: a shared-string cell whose index is at least the length of the
resolved shared-string table makes `process_cell` raise the fatal out-of-range
IndexError rather than produce empty text. -/
theorem C4_shared_index_out_of_range (ss : List Str) (st : List (Int × Style))
    (c : Cell) (merged : List Str) (vt : Str) (i : Int)
    (ht : c.t = some (str "s")) (hv : c.v = some vt) (hi : pyInt vt = some i)
    (hge : (ss.length : Int) ≤ i) :
    process_cell ss st c merged = Except.error PyErr.indexError := by
  have hres : resolve_value ss c = Except.error PyErr.indexError := by
    simp only [resolve_value, ht, hv, hi]
    exact pyListGet_oob ss i hge
  simp [process_cell, hres]

/-- Witness for claim C4: index 5 against a one-entry table. -/
theorem C4_shared_index_out_of_range_witness :
    process_cell [str "a"] [] c4cell [] = Except.error PyErr.indexError :=
  C4_shared_index_out_of_range [str "a"] [] c4cell [] (str "5") 5 rfl rfl rfl (by decide)

/-- Claim C5 counterexample: a cell with style index 99 against an empty style
table is processed to a plain ok value, with no error of any kind, so the
claimed fatal IndexOutOfRange abort does not happen. -/
theorem C5_counterexample :
    process_cell [] [] c5cell [] = Except.ok (str "x") ∧
    (Except.ok (str "x") : Except PyErr Str) ≠ Except.error PyErr.indexError :=
  ⟨rfl, fun h => Except.noConfusion h⟩

/-- Claim C5 (amended): a style index missing from the style table is looked
up with a defaulting dict get, so the cell is processed exactly as with an
empty style table: the empty default style applies and no error is raised. -/
theorem C5_style_index_silent_default (ss : List Str) (st : List (Int × Style))
    (c : Cell) (merged : List Str)
    (h : dictGet st (c.s.getD (-1)) = none) :
    process_cell ss st c merged = process_cell ss [] c merged := by
  cases hres : resolve_value ss c with
  | error e => simp [process_cell, hres]
  | ok v0 => simp [process_cell, hres, h, dictGet]

/-- Witness for the amended claim C5: a style table holding only index 5,
probed by a cell with style index 99. -/
theorem C5_style_index_silent_default_witness :
    process_cell [] [(5, { vertAlign := some (str "subscript"), indent := none })] c5cell [] =
      process_cell [] [] c5cell [] :=
  C5_style_index_silent_default []
    [(5, { vertAlign := some (str "subscript"), indent := none })] c5cell [] rfl

/-- Claim C6: the literal merged suffix is appended exactly when the cell
reference is a substring of some merge-range token; in particular with an
empty merge set the result is the bare styled value. -/
theorem C6_merge_suffix_iff (ss : List Str) (st : List (Int × Style)) (c : Cell)
    (merged : List Str) (ref v : Str)
    (hr : c.r = some ref) (h : process_cell ss st c [] = Except.ok v) :
    process_cell ss st c merged = Except.ok
      (if merged.any (fun m => strContains ref m) then v ++ str " (merged)" else v) := by
  cases hres : resolve_value ss c with
  | error e => simp [process_cell, hres] at h
  | ok v0 =>
    simp [process_cell, hres, hr] at h
    simp [process_cell, hres, hr, h]

/-- Witness for claim C6: reference A1 is a substring of the token A1:B2. -/
theorem C6_merge_suffix_iff_witness :
    process_cell [] [] c6cell [str "A1:B2"] = Except.ok (str "x (merged)") :=
  C6_merge_suffix_iff [] [] c6cell [str "A1:B2"] (str "A1") (str "x") rfl rfl

/-- Claim C9: `process_cell` reads the reference attribute unconditionally, so
a worksheet holding any cell element without it fails the whole conversion
with an error, whatever the merge-range set is. -/
theorem C9_missing_ref_fails (a : Archive) (sheet : SheetXml) (row : Row) (c : Cell)
    (hs : a.sheet1 = some sheet) (hrow : row ∈ sheet.rows) (hc : c ∈ row.cells)
    (hr : c.r = none) :
    ∃ e, convert a = Except.error e := by
  cases hss : extract_shared_strings a.sharedStringsPart with
  | error e => exact ⟨e, by simp [convert, hss]⟩
  | ok ss =>
    obtain ⟨e2, he2⟩ := rows_lines_error_of_cell ss (extract_styles a.stylesPart)
      (extract_merged_cells sheet) sheet.rows row c hrow hc
      (process_cell_no_ref ss (extract_styles a.stylesPart) c (extract_merged_cells sheet) hr)
    exact ⟨e2, by simp [convert, hss, hs, build_markdown_table, he2]⟩

/-- Witness for claim C9: one literal cell with a value but no reference. -/
theorem C9_missing_ref_fails_witness : ∃ e, convert c9archive = Except.error e :=
  C9_missing_ref_fails c9archive c9sheet { cells := [c9cell] } c9cell rfl
    (List.mem_cons_self _ _) (List.mem_cons_self _ _) rfl

/-- Claim C10: a negative shared-string index in `[-len, 0)` resolves without
error to the table entry at position `len + i`, and the cell is then processed
exactly as a literal cell carrying that string. -/
theorem C10_negative_index_wraps (ss : List Str) (st : List (Int × Style))
    (c : Cell) (merged : List Str) (vt : Str) (i : Int)
    (ht : c.t = some (str "s")) (hv : c.v = some vt) (hi : pyInt vt = some i)
    (hneg : i < 0) (hge : -(ss.length : Int) ≤ i) :
    ∃ w, ss.get? ((ss.length : Int) + i).toNat = some w ∧
      pyListGet ss i = Except.ok w ∧
      process_cell ss st c merged =
        process_cell ss st { c with t := none, v := some w } merged := by
  have hlt : ((ss.length : Int) + i).toNat < ss.length := by omega
  obtain ⟨w, hw⟩ : ∃ w, ss.get? ((ss.length : Int) + i).toNat = some w :=
    ⟨ss.get ⟨((ss.length : Int) + i).toNat, hlt⟩, List.get?_eq_get hlt⟩
  have h0 : (0 : Int) ≤ (ss.length : Int) + i := by omega
  have hget : pyListGet ss i = Except.ok w := pyListGet_neg_ok ss i w hneg h0 hw
  have hres : resolve_value ss c = Except.ok w := by
    simp only [resolve_value, ht, hv, hi]
    exact hget
  have hres2 : resolve_value ss { c with t := none, v := some w } = Except.ok w := by
    simp [resolve_value]
  refine ⟨w, hw, hget, ?_⟩
  simp [process_cell, hres, hres2]

/-- Witness for claim C10: index -1 against a two-entry table yields the last
entry. -/
theorem C10_negative_index_wraps_witness :
    pyListGet [str "a", str "b"] (-1) = Except.ok (str "b") := by
  obtain ⟨w, hw, hget, hcell⟩ := C10_negative_index_wraps [str "a", str "b"] [] c10cell []
    (str "-1") (-1) rfl rfl rfl (by decide) (by decide)
  have h2 : some (str "b") = some w := by rw [← hw]; decide
  injection h2 with h3
  rw [← h3] at hget
  exact hget

/-- Claim C2 (amended): each dash run of the synthesized separator has the
character length of the corresponding column cell text PLUS TWO, because the
pipe split keeps the padding spaces around each cell text; the separator line
follows the first row line. -/
theorem C2_separator_dash_runs (ts rest : List Str) (hne : ts ≠ [])
    (hp : ∀ t ∈ ts, '|' ∉ t) :
    add_table_header (row_line ts :: rest) =
      pyJoin (str "\n") (row_line ts ::
        (str "| " ++ pyJoin (str " | ")
          (ts.map (fun t => List.replicate (t.length + 2) '-')) ++ str " |") :: rest) := by
  have hcols : ((splitOnChar '|' (row_line ts)).drop 1).dropLast =
      ts.map (fun t => ' ' :: (t ++ [' '])) := by
    rw [splitOnChar_row_line ts hne hp]
    simp
  have hdash : (ts.map (fun t => ' ' :: (t ++ [' ']))).map
        (fun col => List.replicate col.length '-') =
      ts.map (fun t => List.replicate (t.length + 2) '-') := by
    rw [List.map_map]
    apply map_ext_mem
    intro a _
    simp [Function.comp, pad_length]
  show pyJoin (str "\n") (row_line ts ::
      (str "| " ++ pyJoin (str " | ")
        ((((splitOnChar '|' (row_line ts)).drop 1).dropLast).map
          (fun col => List.replicate col.length '-')) ++ str " |") :: rest) = _
  rw [hcols, hdash]

/-- Witness for the amended claim C2 at the Name/Age scenario row. -/
theorem C2_separator_dash_runs_witness :
    add_table_header [str "| Name | Age |"] = str "| Name | Age |\n| ------ | ----- |" :=
  C2_separator_dash_runs [str "Name", str "Age"] [] (by decide) (by decide)

/-- Claim C2 counterexample: the Name/Age worksheet renders dash runs of
lengths 6 and 5 (cell text length plus the two padding spaces), not the
claimed lengths 4 and 3, so the claimed exact output is not produced. -/
theorem C2_counterexample :
    convert c2archive = Except.ok (str "| Name | Age |\n| ------ | ----- |") ∧
    str "| Name | Age |\n| ------ | ----- |" ≠ str "| Name | Age |\n| ---- | --- |" :=
  ⟨rfl, by decide⟩

/-- Claim C3 (amended): the separator is synthesized from the FIRST line of
the assembled line list and inserted as the second line overall; when there is
no drawing preface (as here) that first line is the first data row, so the
separator lands right after it. -/
theorem C3_separator_after_first_line (ss : List Str) (st : List (Int × Style))
    (merged : List Str) (rows : List Row) (l0 : Str) (ls : List Str)
    (h : rows_lines ss st merged rows = Except.ok (l0 :: ls)) :
    build_markdown_table ss st rows merged [] =
      Except.ok (pyJoin (str "\n") (l0 ::
        (str "| " ++ pyJoin (str " | ")
          ((((splitOnChar '|' l0).drop 1).dropLast).map
            (fun col => List.replicate col.length '-')) ++ str " |") :: ls)) := by
  simp [build_markdown_table, h, add_table_header]

/-- Witness for the amended claim C3: one data row and no drawing preface. -/
theorem C3_separator_after_first_line_witness :
    build_markdown_table [] [] [c3wrow] [] [] = Except.ok (str "| X |\n| --- |") :=
  C3_separator_after_first_line [] [] [] [c3wrow] (str "| X |") [] rfl

/-- Claim C3 counterexample: with a drawing preface present the separator is
computed from the preface heading line and inserted right after it as the
second line overall, not after the first data row; the claimed placement would
give the second output instead. -/
theorem C3_counterexample :
    convert c3archive =
      Except.ok (str "\nDrawings:\n|  |\n* Drawing (id: rId1):\nhi\n\n\n| X |") ∧
    str "\nDrawings:\n|  |\n* Drawing (id: rId1):\nhi\n\n\n| X |" ≠
      str "\nDrawings:\n* Drawing (id: rId1):\nhi\n\n\n| X |\n| --- |" :=
  ⟨rfl, by decide⟩

theorem apply_styles_default (v : Str) : apply_styles v {} = v := rfl

/-- Claim C7 counterexample: an archive lacking both the shared-string part
and the style part, whose sheet holds a shared-string cell, does not convert
successfully: the conversion fails with the out-of-range IndexError, so the
claimed unconditional success does not hold. -/
theorem C7_counterexample : convert c7archive = Except.error PyErr.indexError := rfl

/-- Claim C7 (amended): with the shared-string part and the style part both
absent, conversion of a present sheet succeeds provided every cell carries a
reference attribute and none carries the shared-string type hint; every cell
then renders its raw literal (or inline rich-text) value with no styling
applied, subject only to the merge marking. -/
theorem C7_missing_parts_unstyled (a : Archive) (sheet : SheetXml)
    (hss : a.sharedStringsPart = none) (hst : a.stylesPart = none)
    (hsh : a.sheet1 = some sheet)
    (hcells : ∀ row ∈ sheet.rows, ∀ c ∈ row.cells, ¬ c.t = some (str "s") ∧ c.r ≠ none) :
    (∃ out, convert a = Except.ok out) ∧
    ∀ row ∈ sheet.rows, ∀ c ∈ row.cells,
      process_cell [] [] c (extract_merged_cells sheet) = Except.ok
        (if (extract_merged_cells sheet).any (fun m => strContains (c.r.getD []) m)
          then (if c.inlineRuns.isEmpty then c.v.getD [] else c.inlineRuns.flatten) ++ str " (merged)"
          else (if c.inlineRuns.isEmpty then c.v.getD [] else c.inlineRuns.flatten)) := by
  have hstyles : extract_styles a.stylesPart = [] := by rw [hst]; rfl
  have hshared : extract_shared_strings a.sharedStringsPart = Except.ok [] := by rw [hss]; rfl
  have hcell_ok : ∀ row ∈ sheet.rows, ∀ c ∈ row.cells,
      process_cell [] [] c (extract_merged_cells sheet) = Except.ok
        (if (extract_merged_cells sheet).any (fun m => strContains (c.r.getD []) m)
          then (if c.inlineRuns.isEmpty then c.v.getD [] else c.inlineRuns.flatten) ++ str " (merged)"
          else (if c.inlineRuns.isEmpty then c.v.getD [] else c.inlineRuns.flatten)) := by
    intro row hrow c hc
    obtain ⟨ht, hrne⟩ := hcells row hrow c hc
    obtain ⟨ref, href⟩ := Option.ne_none_iff_exists.mp hrne
    have hr : c.r = some ref := href.symm
    rw [process_cell_literal [] [] c (extract_merged_cells sheet) ref ht hr]
    simp [dictGet, apply_styles_default, hr]
  refine ⟨?_, hcell_ok⟩
  obtain ⟨ls, hls⟩ := rows_lines_ok_of_cells [] [] (extract_merged_cells sheet) sheet.rows
    (fun row hrow c hc => ⟨_, hcell_ok row hrow c hc⟩)
  have hconv : convert a = build_markdown_table [] [] sheet.rows (extract_merged_cells sheet)
      (extract_drawing_metadata a.drawingParts (extract_relationships a.relsPart)) := by
    simp [convert, hshared, hsh, hstyles]
  rw [hconv]
  simp only [build_markdown_table, hls]
  exact ⟨_, rfl⟩

/-- Witness for the amended claim C7: one literal cell, no optional parts. -/
theorem C7_missing_parts_unstyled_witness :
    (∃ out, convert c7warchive = Except.ok out) ∧
    ∀ row ∈ c7wsheet.rows, ∀ c ∈ row.cells,
      process_cell [] [] c (extract_merged_cells c7wsheet) = Except.ok
        (if (extract_merged_cells c7wsheet).any (fun m => strContains (c.r.getD []) m)
          then (if c.inlineRuns.isEmpty then c.v.getD [] else c.inlineRuns.flatten) ++ str " (merged)"
          else (if c.inlineRuns.isEmpty then c.v.getD [] else c.inlineRuns.flatten)) :=
  C7_missing_parts_unstyled c7warchive c7wsheet rfl rfl rfl (by decide)

/-- Claim C8: a row element with zero cells produces no table line, so the
number of emitted row lines equals the number of rows with at least one cell. -/
theorem C8_empty_rows_vanish (ss : List Str) (st : List (Int × Style))
    (merged : List Str) (rows : List Row) (lines : List Str)
    (h : rows_lines ss st merged rows = Except.ok lines) :
    lines.length = (rows.filter (fun r => !r.cells.isEmpty)).length := by
  induction rows generalizing lines with
  | nil =>
    simp [rows_lines] at h
    subst h
    rfl
  | cons row rows ih =>
    unfold rows_lines at h
    cases hpr : process_row ss st merged row with
    | error e => rw [hpr] at h; exact absurd h (by simp)
    | ok rd =>
      rw [hpr] at h
      cases hrest : rows_lines ss st merged rows with
      | error e => rw [hrest] at h; exact absurd h (by simp)
      | ok rest =>
        rw [hrest] at h
        simp only [Except.ok.injEq] at h
        have hlen : rd.length = row.cells.length :=
          exceptMapM_length (fun c => process_cell ss st c merged) row.cells rd hpr
        cases rd with
        | nil =>
          have hce : row.cells = [] := by
            cases hc2 : row.cells with
            | nil => rfl
            | cons x xs => rw [hc2] at hlen; simp at hlen
          simp only [List.isEmpty_nil, if_true] at h
          subst h
          have hcond : (!row.cells.isEmpty) = false := by rw [hce]; rfl
          rw [List.filter_cons, hcond]
          simp only [Bool.false_eq_true, if_false]
          exact ih rest hrest
        | cons x xs =>
          simp only [List.isEmpty_cons, if_false, Bool.false_eq_true] at h
          subst h
          have hcond : (!row.cells.isEmpty) = true := by
            cases hc2 : row.cells with
            | nil => rw [hc2] at hlen; simp at hlen
            | cons y ys => rfl
          rw [List.filter_cons, hcond]
          simp only [if_true, List.length_cons]
          rw [ih rest hrest]

/-- Witness for claim C8: an empty row followed by a one-cell row yields
exactly one table line. -/
theorem C8_empty_rows_vanish_witness :
    ([str "| x |"] : List Str).length =
      (([{ cells := [] }, { cells := [c8cell] }] : List Row).filter
        (fun r => !r.cells.isEmpty)).length :=
  C8_empty_rows_vanish [] [] [] [{ cells := [] }, { cells := [c8cell] }] [str "| x |"] rfl
